import Mathlib

/-!
# A shallow embedding of the tle_retriever pipeline (src/main.rs)

The program is a single linear pipeline: parse arguments, configure logging,
load settings, create the output file, build a space-track query, perform one
authenticated HTTP POST, decode the JSON body into `STResponse` records, and
write three text lines per record to the output file.

This file embeds the data model and the pipeline as executable Lean
definitions and proves the specification claims about them.  Network, file
system and configuration loading are external effects: they enter the model
as a `World` value holding the outcome each external call would produce,
while the pipeline's own control flow, data transformations and the order of
its externally visible actions (the `Event` trace) are modelled faithfully
from the source.
-/

namespace TleRetriever

/-- A JSON value, modelling the parsed response body handed to serde by
`response.into_json()`. -/
inductive Json where
  | null : Json
  | bool (b : Bool) : Json
  | num (n : Int) : Json
  | str (s : String) : Json
  | arr (elems : List Json) : Json
  | obj (fields : List (String × Json)) : Json

/-- Digits of a character list read as a base-10 number. -/
def digitsVal (ds : List Char) : Nat :=
  ds.foldl (fun a c => 10 * a + (c.toNat - 48)) 0

/-- Scan a non-empty run of ASCII digits, returning its value and the rest. -/
def scanNat (cs : List Char) : Option (Nat × List Char) :=
  let ds := cs.takeWhile Char.isDigit
  if ds.isEmpty then none
  else some (digitsVal ds, cs.dropWhile Char.isDigit)

/-- Consume one expected literal character. -/
def expectChar (c : Char) : List Char → Option (List Char)
  | [] => none
  | x :: rest => if x = c then some rest else none

/-- Optional fractional-second part: a dot followed by at least one digit;
the first nine digits give the nanosecond count, further digits are read and
dropped.  Absent fraction means zero nanoseconds.  Models chrono's
`Fixed::Nanosecond` parse item. -/
def scanFrac (cs : List Char) : Option (Nat × List Char) :=
  match cs with
  | '.' :: rest =>
    let ds := rest.takeWhile Char.isDigit
    if ds.isEmpty then none
    else some (digitsVal (ds.take 9) * 10 ^ (9 - min ds.length 9),
               rest.dropWhile Char.isDigit)
  | cs => some (0, cs)

def isLeapYear (y : Nat) : Bool :=
  (y % 4 == 0 && y % 100 != 0) || y % 400 == 0

def daysInMonth (y m : Nat) : Nat :=
  if m = 2 then (if isLeapYear y then 29 else 28)
  else if m = 4 ∨ m = 6 ∨ m = 9 ∨ m = 11 then 30
  else 31

/-- A calendar timestamp without timezone, modelling
`chrono::naive::NaiveDateTime` as the fields that determine its value. -/
structure NaiveDateTime where
  year : Nat
  month : Nat
  day : Nat
  hour : Nat
  minute : Nat
  second : Nat
  nano : Nat
deriving DecidableEq, Repr

/-- Parse of the wire datetime format, modelling chrono's `FromStr` for
`NaiveDateTime` (format `%Y-%m-%dT%H:%M:%S%.f`): date, literal `T`, time,
optional fractional seconds, then end of input (trailing spaces allowed).
Calendar validity is checked.  Simplifications against chrono that no claim
depends on: years are unsigned here, and the leap-second spelling
(second = 60) is not accepted. -/
def parseNaiveDateTime (s : String) : Option NaiveDateTime := do
  let (y, r1) ← scanNat s.data
  let r2 ← expectChar '-' r1
  let (mo, r3) ← scanNat r2
  let r4 ← expectChar '-' r3
  let (d, r5) ← scanNat r4
  let r6 ← expectChar 'T' r5
  let (h, r7) ← scanNat r6
  let r8 ← expectChar ':' r7
  let (mi, r9) ← scanNat r8
  let r10 ← expectChar ':' r9
  let (sec, r11) ← scanNat r10
  let (ns, r12) ← scanFrac r11
  if r12.dropWhile (fun c => c = ' ') = [] ∧
      1 ≤ mo ∧ mo ≤ 12 ∧ 1 ≤ d ∧ d ≤ daysInMonth y mo ∧
      h ≤ 23 ∧ mi ≤ 59 ∧ sec ≤ 59 then
    some ⟨y, mo, d, h, mi, sec, ns⟩
  else none

/-- One decoded response element, mirroring `struct STResponse` field for
field (the serde rename gives each field its wire name). -/
structure STResponse where
  object_name : Option String
  international_designator : Option String
  norad_id : String
  datetime : NaiveDateTime
  revolution_number : String
  line_1 : String
  line_2 : String
deriving DecidableEq, Repr

/-- How many times a key occurs in a JSON object. -/
def countKey (fields : List (String × Json)) (k : String) : Nat :=
  (fields.filter (fun f => f.fst = k)).length

/-- Look a key up in a JSON object: absent keys give `none`, a repeated key
is a decode error, as in serde's derived deserializer. -/
def getField (fields : List (String × Json)) (k : String) :
    Except String (Option Json) :=
  match fields.filter (fun f => f.fst = k) with
  | [] => .ok none
  | [f] => .ok (some f.snd)
  | _ => .error ("duplicate field " ++ k)

/-- A required `String` field: must be present with a JSON string value. -/
def reqStringField (fields : List (String × Json)) (k : String) :
    Except String String :=
  match getField fields k with
  | .error e => .error e
  | .ok none => .error ("missing field " ++ k)
  | .ok (some (.str s)) => .ok s
  | .ok (some _) => .error ("invalid type for field " ++ k)

/-- An `Option String` field: absent or JSON `null` give `none`, a string
gives `some`, anything else is a decode error — serde's treatment of an
`Option<String>` struct field. -/
def optStringField (fields : List (String × Json)) (k : String) :
    Except String (Option String) :=
  match getField fields k with
  | .error e => .error e
  | .ok none => .ok none
  | .ok (some .null) => .ok none
  | .ok (some (.str s)) => .ok (some s)
  | .ok (some _) => .error ("invalid type for field " ++ k)

/-- A required `NaiveDateTime` field: a JSON string parsed by the chrono
wire format. -/
def reqDateTimeField (fields : List (String × Json)) (k : String) :
    Except String NaiveDateTime :=
  match reqStringField fields k with
  | .error e => .error e
  | .ok s =>
    match parseNaiveDateTime s with
    | some dt => .ok dt
    | none => .error ("invalid datetime in field " ++ k)

/-- Decode one response element, modelling serde's derived `Deserialize` for
`STResponse` with the `#[serde(rename)]` wire names.  Every field must be
well-typed; the two `Option` fields tolerate absence and `null`. -/
def decodeSTResponse : Json → Except String STResponse
  | .obj fields =>
    match optStringField fields "OBJECT_NAME",
          optStringField fields "OBJECT_ID",
          reqStringField fields "NORAD_CAT_ID",
          reqDateTimeField fields "EPOCH",
          reqStringField fields "REV_AT_EPOCH",
          reqStringField fields "TLE_LINE1",
          reqStringField fields "TLE_LINE2" with
    | .ok oname, .ok oid, .ok nid, .ok dt, .ok rev, .ok l1, .ok l2 =>
      .ok ⟨oname, oid, nid, dt, rev, l1, l2⟩
    | .error e, _, _, _, _, _, _ => .error e
    | _, .error e, _, _, _, _, _ => .error e
    | _, _, .error e, _, _, _, _ => .error e
    | _, _, _, .error e, _, _, _ => .error e
    | _, _, _, _, .error e, _, _ => .error e
    | _, _, _, _, _, .error e, _ => .error e
    | _, _, _, _, _, _, .error e => .error e
  | _ => .error "invalid type: expected object"

/-- Decode a list of elements in order; the first failing element fails the
whole decode, as serde does for `Vec<STResponse>`. -/
def decodeElems : List Json → Except String (List STResponse)
  | [] => .ok []
  | j :: js =>
    match decodeSTResponse j with
    | .error e => .error e
    | .ok r =>
      match decodeElems js with
      | .error e => .error e
      | .ok rs => .ok (r :: rs)

/-- Decode a whole response body (`response.into_json::<Vec<STResponse>>()`):
the body must be a JSON array and every element must decode. -/
def decodeSTList : Json → Except String (List STResponse)
  | .arr elems => decodeElems elems
  | _ => .error "invalid type: expected array"

/-- The configuration record, mirroring `struct Settings`. -/
structure Settings where
  username : String
  password : String
  norad_ids : List Nat
  connection_timeout : Nat
  connection_read_timeout : Nat
  connection_retries : Nat
  output_filename : String
  output_directory : String
deriving DecidableEq, Repr

/-- Rust's `Vec::join` on strings: parts concatenated with the separator
between consecutive parts. -/
def joinComma : List String → String
  | [] => ""
  | [x] => x
  | x :: xs => x ++ "," ++ joinComma xs

def gpQueryBase : String :=
  "https://www.space-track.org/basicspacedata/query/class/gp/NORAD_CAT_ID/"

def gpQuerySuffix : String := "/orderby/TLE_LINE1%20ASC/format/json"

/-- The query builder (main.rs lines 112-115): the general-perturbations
path, the ids rendered in decimal and comma-joined in order, then the
order-by and format clauses. -/
def buildQuery (ids : List Nat) : String :=
  gpQueryBase ++ joinComma (ids.map (fun n => toString n)) ++ gpQuerySuffix

/-- Name rendered by the writer: `resp.object_name.unwrap_or("Unknown")`. -/
def displayName (r : STResponse) : String :=
  r.object_name.getD "Unknown"

/-- The three newline-terminated lines the writer emits for one record
(main.rs lines 122-132). -/
def serializeRecord (r : STResponse) : String :=
  displayName r ++ "\n" ++ r.line_1 ++ "\n" ++ r.line_2 ++ "\n"

/-- Everything the writer emits for a record sequence, in order. -/
def serializeRecords : List STResponse → String
  | [] => ""
  | r :: rs => serializeRecord r ++ serializeRecords rs

/-- Split a character list at a separator, treating a trailing separator as
a terminator: the lines of a text. -/
def splitOnChar (sep : Char) : List Char → List (List Char)
  | [] => []
  | c :: rest =>
    if c = sep then [] :: splitOnChar sep rest
    else
      match splitOnChar sep rest with
      | [] => [[c]]
      | l :: ls => (c :: l) :: ls

/-- The lines of an output text. -/
def linesOf (s : String) : List String :=
  (splitOnChar '\n' s.data).map (fun l => String.mk l)

/-- Character-level counterpart of `joinComma`. -/
def joinSep (sep : Char) : List (List Char) → List Char
  | [] => []
  | [p] => p
  | p :: ps => p ++ sep :: joinSep sep ps

/-- Whether a path string begins with the separator. -/
def headIsSep (p : String) : Bool :=
  match p.data with
  | '/' :: _ => true
  | _ => false

/-- Whether a path string ends with the separator. -/
def lastIsSep (p : String) : Bool :=
  match p.data.getLast? with
  | some '/' => true
  | _ => false

/-- `PathBuf::push`: an absolute component replaces the base, a relative one
is appended behind a separator unless the base is empty or already ends in
one. -/
def joinPath (dir file : String) : String :=
  if headIsSep file then file
  else if dir = "" then file
  else if lastIsSep dir then dir ++ file
  else dir ++ "/" ++ file

/-- `log::LevelFilter`. -/
inductive LevelFilter where
  | off | error | warn | info | debug | trace
deriving DecidableEq, Repr

def invalidLogLevelMsg : String :=
  "Invalid loglevel, needs to be one of: off,error,warn,info,debug or trace"

/-- The log-level match in `main` (lines 83-91): the six accepted strings,
anything else is the fatal error returned there. -/
def parseLevelFilter (s : String) : Except String LevelFilter :=
  if s = "off" then .ok .off
  else if s = "error" then .ok .error
  else if s = "warn" then .ok .warn
  else if s = "info" then .ok .info
  else if s = "debug" then .ok .debug
  else if s = "trace" then .ok .trace
  else .error invalidLogLevelMsg

/-- The optional `-l` argument: absent means the default logging stays. -/
def checkLogLevel : Option String → Except String LevelFilter
  | none => .ok .info
  | some s => parseLevelFilter s

def loginUrl : String := "https://www.space-track.org/ajaxauth/login"

/-- The three form-encoded fields of the single authenticated request
(`send_form`, main.rs lines 116-120). -/
def authForm (s : Settings) : List (String × String) :=
  [("identity", s.username), ("password", s.password),
   ("query", buildQuery s.norad_ids)]

/-- Externally visible actions of one run, in the order they are taken. -/
inductive Event where
  | loadSettings : Event
  | createFile (path : String) : Event
  | httpPost (url : String) (form : List (String × String)) : Event
  | writeTriple (name line1 line2 : String) : Event
deriving DecidableEq, Repr

/-- Outcomes the external world would hand each effectful call: the settings
loader, `File::create`, and the HTTP POST (whose `ok` value is the parsed
JSON body). -/
structure World where
  settingsResult : Except String Settings
  createOk : Bool
  fetchResult : Except String Json

/-- What a run produces: its event trace, its `Result`, and the final
content of the output file (`none` when the file was never created; file
creation truncates, so content starts empty). -/
structure RunOutcome where
  trace : List Event
  result : Except String Unit
  fileContent : Option String

/-- The events every run that reaches the network performs first, in order:
settings load, output-file creation at the joined path, then the single
authenticated POST. -/
def tracePrefix (s : Settings) : List Event :=
  [.loadSettings,
   .createFile (joinPath s.output_directory s.output_filename),
   .httpPost loginUrl (authForm s)]

/-- The pipeline of `fn main` (lines 53-133): validate the log level, load
settings, create (truncate) the output file at the joined path, build the
query, perform the single authenticated POST, decode the body, then write
three lines per record.  Each stage aborts the run on failure. -/
def runMain (loglevel : Option String) (w : World) : RunOutcome :=
  match checkLogLevel loglevel with
  | .error e => ⟨[], .error e, none⟩
  | .ok _ =>
    match w.settingsResult with
    | .error e => ⟨[.loadSettings], .error e, none⟩
    | .ok s =>
      let path := joinPath s.output_directory s.output_filename
      if w.createOk = false then
        ⟨[.loadSettings, .createFile path], .error "could not create output file", none⟩
      else
        match w.fetchResult with
        | .error e => ⟨tracePrefix s, .error e, some ""⟩
        | .ok body =>
          match decodeSTList body with
          | .error e => ⟨tracePrefix s, .error e, some ""⟩
          | .ok rs =>
            ⟨tracePrefix s ++
               rs.map (fun r => .writeTriple (displayName r) r.line_1 r.line_2),
             .ok (), some (serializeRecords rs)⟩

/-- How many HTTP POSTs a trace holds. -/
def countPosts (t : List Event) : Nat :=
  (t.filter (fun e => match e with | .httpPost _ _ => true | _ => false)).length

/-- Whether the first occurrence of `a` strictly precedes the first
occurrence of `b` in a trace (both present). -/
def eventBeforeB (a b : Event) (t : List Event) : Bool :=
  match t.findIdx? (fun e => e == a), t.findIdx? (fun e => e == b) with
  | some i, some j => decide (i < j)
  | _, _ => false

/-- The wire names serde requires on every response element. -/
def requiredKeys : List String :=
  ["NORAD_CAT_ID", "EPOCH", "REV_AT_EPOCH", "TLE_LINE1", "TLE_LINE2"]

/-- An object element that lacks at least one required wire field. -/
def missingRequiredB (j : Json) : Bool :=
  match j with
  | .obj fields => requiredKeys.any (fun k => countKey fields k == 0)
  | _ => false

/-- The same settings with another configured retry count. -/
def setRetries (s : Settings) (n : Nat) : Settings :=
  ⟨s.username, s.password, s.norad_ids, s.connection_timeout,
   s.connection_read_timeout, n, s.output_filename, s.output_directory⟩

/-- The same world, its settings load yielding another retry count. -/
def retriesWorld (w : World) (s : Settings) (n : Nat) : World :=
  ⟨.ok (setRetries s n), w.createOk, w.fetchResult⟩

/- Concrete data for witnesses and counterexamples. -/

def demoSettings : Settings :=
  ⟨"user", "secret", [25544], 30, 30, 3, "tle.txt", "out"⟩

def epochFieldsA : List (String × Json) :=
  [("NORAD_CAT_ID", .str "25544"), ("EPOCH", .str "2023-01-01T00:00:00"),
   ("REV_AT_EPOCH", .str "1000"), ("TLE_LINE1", .str "1 25544U"),
   ("TLE_LINE2", .str "2 25544")]

def epochFieldsB : List (String × Json) :=
  [("NORAD_CAT_ID", .str "25544"), ("EPOCH", .str "2023-01-01T00:00:00.000"),
   ("REV_AT_EPOCH", .str "1000"), ("TLE_LINE1", .str "1 25544U"),
   ("TLE_LINE2", .str "2 25544")]

def epochRec : STResponse :=
  ⟨none, none, "25544", ⟨2023, 1, 1, 0, 0, 0, 0⟩, "1000", "1 25544U", "2 25544"⟩

def nlFields : List (String × Json) :=
  ("OBJECT_NAME", .str "A\nB") :: epochFieldsA

def nlRec : STResponse :=
  ⟨some "A\nB", none, "25544", ⟨2023, 1, 1, 0, 0, 0, 0⟩, "1000", "1 25544U", "2 25544"⟩

def emptyNameFields : List (String × Json) :=
  ("OBJECT_NAME", .str "") :: epochFieldsA

def nullNameFields : List (String × Json) :=
  ("OBJECT_NAME", .null) :: epochFieldsA

def emptyNameRec : STResponse :=
  ⟨some "", none, "25544", ⟨2023, 1, 1, 0, 0, 0, 0⟩, "1000", "1 25544U", "2 25544"⟩

def missingIdFields : List (String × Json) :=
  [("EPOCH", .str "2023-01-01T00:00:00"), ("REV_AT_EPOCH", .str "1000"),
   ("TLE_LINE1", .str "1 25544U"), ("TLE_LINE2", .str "2 25544")]

def demoForm : List (String × String) :=
  [("identity", "user"), ("password", "secret"), ("query", buildQuery [25544])]

def demoWorldOffline : World := ⟨.ok demoSettings, true, .error "offline"⟩

def demoWorldNoFile : World := ⟨.ok demoSettings, false, .error "offline"⟩

def demoWorldMissing : World :=
  ⟨.ok demoSettings, true, .ok (.arr [.obj missingIdFields])⟩

/-! ## Lemmas about characters, lines and joins -/

theorem mk_data (s : String) : String.mk s.data = s := rfl

theorem newline_data : ("\n" : String).data = ['\n'] := rfl

theorem splitOnChar_cons (sep c : Char) (rest : List Char) :
    splitOnChar sep (c :: rest) =
      if c = sep then [] :: splitOnChar sep rest
      else
        match splitOnChar sep rest with
        | [] => [[c]]
        | l :: ls => (c :: l) :: ls := rfl

theorem splitOnChar_append (sep : Char) (l rest : List Char) (h : sep ∉ l) :
    splitOnChar sep (l ++ sep :: rest) = l :: splitOnChar sep rest := by
  induction l with
  | nil => simp [splitOnChar]
  | cons c l ih =>
    have hc : ¬ c = sep := fun hcs => h (hcs ▸ List.mem_cons_self c l)
    have hl : sep ∉ l := fun hm => h (List.mem_cons_of_mem c hm)
    rw [List.cons_append, splitOnChar_cons, if_neg hc, ih hl]

theorem splitOnChar_singleton (sep : Char) : ∀ (p : List Char), sep ∉ p → p ≠ [] →
    splitOnChar sep p = [p]
  | [], _, hne => absurd rfl hne
  | [c], hfree, _ => by
    have hc : ¬ c = sep := fun hcs => hfree (hcs ▸ List.mem_cons_self c [])
    rw [splitOnChar_cons, if_neg hc]
    rfl
  | c :: d :: q, hfree, _ => by
    have hc : ¬ c = sep := fun hcs => hfree (hcs ▸ List.mem_cons_self c (d :: q))
    have hp : sep ∉ d :: q := fun hm => hfree (List.mem_cons_of_mem c hm)
    have ih := splitOnChar_singleton sep (d :: q) hp (by simp)
    rw [splitOnChar_cons, if_neg hc, ih]

theorem splitOnChar_joinSep (sep : Char) : ∀ (ps : List (List Char)),
    (∀ p ∈ ps, sep ∉ p) → (∀ p ∈ ps, p ≠ []) → ps ≠ [] →
    splitOnChar sep (joinSep sep ps) = ps
  | [], _, _, hne => absurd rfl hne
  | [p], hfree, hful, _ =>
    splitOnChar_singleton sep p (hfree p (List.mem_cons_self p []))
      (hful p (List.mem_cons_self p []))
  | p :: q :: t, hfree, hful, _ => by
    have h1 : sep ∉ p := hfree p (List.mem_cons_self p (q :: t))
    have ih := splitOnChar_joinSep sep (q :: t)
      (fun x hx => hfree x (List.mem_cons_of_mem p hx))
      (fun x hx => hful x (List.mem_cons_of_mem p hx)) (by simp)
    show splitOnChar sep (p ++ sep :: joinSep sep (q :: t)) = p :: q :: t
    rw [splitOnChar_append sep p _ h1, ih]

theorem joinComma_data (ss : List String) :
    (joinComma ss).data = joinSep ',' (ss.map String.data) := by
  induction ss with
  | nil => rfl
  | cons x t ih =>
    cases t with
    | nil => rfl
    | cons y t' =>
      show (x ++ "," ++ joinComma (y :: t')).data = _
      rw [String.data_append, String.data_append, ih]
      simp [joinSep, List.append_assoc]

/-! ## Decimal rendering of catalog identifiers -/

theorem digitChar_ne_comma (m : Nat) (h : m < 10) : Nat.digitChar m ≠ ',' := by
  interval_cases m <;> decide

theorem toDigitsCore_succ (b fuel n : Nat) (ds : List Char) :
    Nat.toDigitsCore b (fuel + 1) n ds =
      if n / b = 0 then Nat.digitChar (n % b) :: ds
      else Nat.toDigitsCore b fuel (n / b) (Nat.digitChar (n % b) :: ds) := rfl

theorem toDigitsCore_ne_comma (fuel : Nat) : ∀ (n : Nat) (ds : List Char),
    (∀ c ∈ ds, c ≠ ',') → ∀ c ∈ Nat.toDigitsCore 10 fuel n ds, c ≠ ',' := by
  induction fuel with
  | zero => intro n ds hds c hc; exact hds c hc
  | succ fuel ih =>
    intro n ds hds c hc
    have hd : Nat.digitChar (n % 10) ≠ ',' :=
      digitChar_ne_comma _ (Nat.mod_lt _ (by omega))
    rw [toDigitsCore_succ] at hc
    split at hc
    · rcases List.mem_cons.mp hc with rfl | hm
      · exact hd
      · exact hds c hm
    · refine ih _ _ ?_ c hc
      intro x hx
      rcases List.mem_cons.mp hx with rfl | hm
      · exact hd
      · exact hds x hm

theorem toDigitsCore_length (b fuel : Nat) : ∀ (n : Nat) (ds : List Char),
    ds.length ≤ (Nat.toDigitsCore b fuel n ds).length := by
  induction fuel with
  | zero => intro n ds; simp [Nat.toDigitsCore]
  | succ fuel ih =>
    intro n ds
    rw [toDigitsCore_succ]
    split
    · simp
    · exact le_trans (by simp) (ih _ (Nat.digitChar (n % b) :: ds))

theorem toString_nat_data (n : Nat) : (toString n).data = Nat.toDigits 10 n := rfl

theorem toString_nat_ne_comma (n : Nat) : ',' ∉ (toString n).data := by
  rw [toString_nat_data]
  intro hm
  exact toDigitsCore_ne_comma (n + 1) n [] (fun c hc => absurd hc (List.not_mem_nil c))
    ',' hm rfl

theorem toString_nat_ne_nil (n : Nat) : (toString n).data ≠ [] := by
  rw [toString_nat_data]
  show Nat.toDigitsCore 10 (n + 1) n [] ≠ []
  rw [toDigitsCore_succ]
  split
  · simp
  · intro h
    have hlen := toDigitsCore_length 10 n (n / 10) [Nat.digitChar (n % 10)]
    rw [h] at hlen
    simp at hlen

/-! ## The query builder (claim C1) -/

/-- C1: for every non-empty ordered list of catalog identifiers, the built
query string is exactly the general-perturbations query path, followed by
the identifiers rendered in decimal and joined by commas in the input order,
followed by the order-by-TLE_LINE1-ascending and JSON-format clauses.
Splitting the joined segment back on commas recovers precisely the rendered
identifiers, so no reordering and no deduplication happens. -/
theorem C1_built_query (ids : List Nat) (hne : ids ≠ []) :
    buildQuery ids =
      gpQueryBase ++ joinComma (ids.map (fun n => toString n)) ++ gpQuerySuffix ∧
    splitOnChar ',' (joinComma (ids.map (fun n => toString n))).data =
      ids.map (fun n => (toString n).data) := by
  refine ⟨rfl, ?_⟩
  rw [joinComma_data, List.map_map]
  have hsplit := splitOnChar_joinSep ',' (ids.map (String.data ∘ fun n => toString n))
    (by
      intro p hp
      obtain ⟨n, _, rfl⟩ := List.mem_map.mp hp
      exact toString_nat_ne_comma n)
    (by
      intro p hp
      obtain ⟨n, _, rfl⟩ := List.mem_map.mp hp
      exact toString_nat_ne_nil n)
    (by simpa using hne)
  rw [hsplit]
  rfl

/-- Witness for C1 at a concrete input; the duplicated identifier shows that
no deduplication takes place. -/
theorem C1_built_query_witness :
    buildQuery [25544, 25544, 20580] =
      "https://www.space-track.org/basicspacedata/query/class/gp/NORAD_CAT_ID/25544,25544,20580/orderby/TLE_LINE1%20ASC/format/json" := by
  rw [(C1_built_query [25544, 25544, 20580] (by decide)).1]
  rfl

/-! ## The output writer (claims C3, C4, C10) -/

theorem serializeRecords_cons_data (r : STResponse) (rs : List STResponse) :
    (serializeRecords (r :: rs)).data =
      (displayName r).data ++ '\n' ::
        (r.line_1.data ++ '\n' :: (r.line_2.data ++ '\n' :: (serializeRecords rs).data)) := by
  show (serializeRecord r ++ serializeRecords rs).data = _
  simp [serializeRecord, String.data_append, newline_data, List.append_assoc]

theorem length_flatMap_triples (rs : List STResponse) :
    (rs.flatMap (fun r => [displayName r, r.line_1, r.line_2])).length =
      3 * rs.length := by
  induction rs with
  | nil => rfl
  | cons r rs ih =>
    simp only [List.flatMap_cons, List.length_append, List.length_cons,
      List.length_nil, ih]
    omega

/-- C3 (amended): for every sequence of decoded records whose rendered name,
first line and second line contain no line terminator, the writer's output
is exactly the records' triples (name, line_1, line_2) flattened in order —
no header, footer or separator lines — and hence exactly 3·K lines for K
records.  (Without the no-newline proviso the claim fails, see the
counterexample.) -/
theorem C3_writer_lines (rs : List STResponse)
    (h : ∀ r ∈ rs, '\n' ∉ (displayName r).data ∧ '\n' ∉ r.line_1.data ∧
      '\n' ∉ r.line_2.data) :
    linesOf (serializeRecords rs) =
      rs.flatMap (fun r => [displayName r, r.line_1, r.line_2]) ∧
    (linesOf (serializeRecords rs)).length = 3 * rs.length := by
  have main : linesOf (serializeRecords rs) =
      rs.flatMap (fun r => [displayName r, r.line_1, r.line_2]) := by
    induction rs with
    | nil => rfl
    | cons r rs ih =>
      obtain ⟨h1, h2, h3⟩ := h r (List.mem_cons_self r rs)
      have hrest := fun x hx => h x (List.mem_cons_of_mem r hx)
      unfold linesOf
      rw [serializeRecords_cons_data,
        splitOnChar_append _ _ _ h1, splitOnChar_append _ _ _ h2,
        splitOnChar_append _ _ _ h3]
      simp only [List.map_cons, mk_data, List.flatMap_cons, List.cons_append,
        List.nil_append]
      exact congrArg _ (congrArg _ (congrArg _ (ih hrest)))
  refine ⟨main, ?_⟩
  rw [main]
  exact length_flatMap_triples rs

/-- Witness for C3 at two concrete records, one with the "Unknown"
placeholder: six lines in decode order. -/
theorem C3_writer_lines_witness :
    linesOf (serializeRecords
        [⟨some "ISS", none, "25544", ⟨2023, 1, 1, 0, 0, 0, 0⟩, "1000", "1A", "2A"⟩,
         ⟨none, none, "20580", ⟨2023, 1, 1, 0, 0, 0, 0⟩, "500", "1B", "2B"⟩]) =
      ["ISS", "1A", "2A", "Unknown", "1B", "2B"] := by
  rw [(C3_writer_lines _ (by decide)).1]
  rfl

/-- C3 counterexample: a decoded record whose name field holds a line
terminator produces four lines, not 3·1: the exact 3·K line count does not
hold for every sequence of decoded records. -/
theorem C3_counterexample :
    decodeElems [.obj nlFields] = .ok [nlRec] ∧
    (linesOf (serializeRecords [nlRec])).length = 4 ∧ 3 * 1 ≠ 4 :=
  ⟨rfl, rfl, by decide⟩

/-! ## Decode lemmas (claims C2, C4, C5, C10) -/

theorem decodeSTResponse_obj_ok {fields : List (String × Json)} {r : STResponse}
    (h : decodeSTResponse (.obj fields) = .ok r) :
    optStringField fields "OBJECT_NAME" = .ok r.object_name ∧
    optStringField fields "OBJECT_ID" = .ok r.international_designator ∧
    reqStringField fields "NORAD_CAT_ID" = .ok r.norad_id ∧
    reqDateTimeField fields "EPOCH" = .ok r.datetime ∧
    reqStringField fields "REV_AT_EPOCH" = .ok r.revolution_number ∧
    reqStringField fields "TLE_LINE1" = .ok r.line_1 ∧
    reqStringField fields "TLE_LINE2" = .ok r.line_2 := by
  unfold decodeSTResponse at h
  split at h
  · split at h
    · cases h
      simp_all
    all_goals exact Except.noConfusion h
  · rename_i hcontra
    exact (hcontra _ rfl).elim

theorem decodeSTResponse_obj_of (fields : List (String × Json))
    (oname oid : Option String) (nid : String) (dt : NaiveDateTime)
    (rev l1 l2 : String)
    (h1 : optStringField fields "OBJECT_NAME" = .ok oname)
    (h2 : optStringField fields "OBJECT_ID" = .ok oid)
    (h3 : reqStringField fields "NORAD_CAT_ID" = .ok nid)
    (h4 : reqDateTimeField fields "EPOCH" = .ok dt)
    (h5 : reqStringField fields "REV_AT_EPOCH" = .ok rev)
    (h6 : reqStringField fields "TLE_LINE1" = .ok l1)
    (h7 : reqStringField fields "TLE_LINE2" = .ok l2) :
    decodeSTResponse (.obj fields) = .ok ⟨oname, oid, nid, dt, rev, l1, l2⟩ := by
  simp only [decodeSTResponse]
  rw [h1, h2, h3, h4, h5, h6, h7]

theorem decodeElems_ok : ∀ {js : List Json} {rs : List STResponse},
    decodeElems js = .ok rs →
    rs.length = js.length ∧
    ∀ i (hi : i < js.length) (hr : i < rs.length),
      decodeSTResponse (js.get ⟨i, hi⟩) = .ok (rs.get ⟨i, hr⟩) := by
  intro js
  induction js with
  | nil =>
    intro rs h
    cases h
    exact ⟨rfl, fun i hi _ => absurd hi (by simp)⟩
  | cons j js ih =>
    intro rs h
    unfold decodeElems at h
    cases hj : decodeSTResponse j with
    | error e => rw [hj] at h; exact Except.noConfusion h
    | ok r =>
      rw [hj] at h
      cases hrest : decodeElems js with
      | error e => rw [hrest] at h; exact Except.noConfusion h
      | ok rs' =>
        rw [hrest] at h
        cases h
        obtain ⟨hlen, hidx⟩ := ih hrest
        refine ⟨by simp [hlen], ?_⟩
        intro i hi hr
        cases i with
        | zero => exact hj
        | succ i =>
          exact hidx i (Nat.lt_of_succ_lt_succ hi) (Nat.lt_of_succ_lt_succ hr)

theorem decodeElems_error_of_mem {js : List Json} {j : Json} (hj : j ∈ js)
    {e : String} (he : decodeSTResponse j = .error e) :
    ∃ e2, decodeElems js = .error e2 := by
  induction js with
  | nil => cases hj
  | cons a js ih =>
    rcases List.mem_cons.mp hj with rfl | hm
    · exact ⟨e, by unfold decodeElems; rw [he]⟩
    · cases ha : decodeSTResponse a with
      | error e2 => exact ⟨e2, by unfold decodeElems; rw [ha]⟩
      | ok r =>
        obtain ⟨e2, he2⟩ := ih hm
        exact ⟨e2, by unfold decodeElems; rw [ha, he2]⟩

theorem getField_of_countKey_zero {fields : List (String × Json)} {k : String}
    (h : countKey fields k = 0) : getField fields k = .ok none := by
  unfold countKey at h
  unfold getField
  rw [List.length_eq_zero.mp h]

theorem reqStringField_missing {fields : List (String × Json)} {k : String}
    (h : countKey fields k = 0) :
    reqStringField fields k = .error ("missing field " ++ k) := by
  unfold reqStringField
  rw [getField_of_countKey_zero h]

theorem optStringField_absent {fields : List (String × Json)} {k : String}
    (h : countKey fields k = 0) : optStringField fields k = .ok none := by
  unfold optStringField
  rw [getField_of_countKey_zero h]

theorem optStringField_null {fields : List (String × Json)} {k : String}
    (h : getField fields k = .ok (some .null)) :
    optStringField fields k = .ok none := by
  unfold optStringField
  rw [h]

theorem optStringField_str {fields : List (String × Json)} {k s : String}
    (h : getField fields k = .ok (some (.str s))) :
    optStringField fields k = .ok (some s) := by
  unfold optStringField
  rw [h]

theorem reqDateTimeField_ok {fields : List (String × Json)} {k : String}
    {dt : NaiveDateTime} (h : reqDateTimeField fields k = .ok dt) :
    ∃ s, reqStringField fields k = .ok s ∧ parseNaiveDateTime s = some dt := by
  unfold reqDateTimeField at h
  split at h
  · exact Except.noConfusion h
  · rename_i s hs
    split at h
    · rename_i dt2 hp
      cases h
      exact ⟨s, hs, hp⟩
    · exact Except.noConfusion h

theorem decode_missing_required {fields : List (String × Json)} {k : String}
    (hk : k ∈ requiredKeys) (h0 : countKey fields k = 0) :
    ∃ e, decodeSTResponse (.obj fields) = .error e := by
  cases hdec : decodeSTResponse (.obj fields) with
  | error e => exact ⟨e, rfl⟩
  | ok r =>
    exfalso
    obtain ⟨_, _, h3, h4, h5, h6, h7⟩ := decodeSTResponse_obj_ok hdec
    have hmiss := reqStringField_missing (k := k) h0
    simp only [requiredKeys, List.mem_cons, List.not_mem_nil, or_false] at hk
    rcases hk with rfl | rfl | rfl | rfl | rfl
    · rw [h3] at hmiss; exact Except.noConfusion hmiss
    · unfold reqDateTimeField at h4
      rw [hmiss] at h4
      exact Except.noConfusion h4
    · rw [h5] at hmiss; exact Except.noConfusion hmiss
    · rw [h6] at hmiss; exact Except.noConfusion hmiss
    · rw [h7] at hmiss; exact Except.noConfusion hmiss

theorem missingRequiredB_error {j : Json} (h : missingRequiredB j = true) :
    ∃ e, decodeSTResponse j = .error e := by
  unfold missingRequiredB at h
  cases j <;> simp only [List.any_eq_true, beq_iff_eq] at h
  case obj fields =>
    obtain ⟨k, hk, h0⟩ := h
    exact decode_missing_required hk h0
  all_goals exact Bool.noConfusion h

/-- C2 (amended): decoding a JSON array of N well-formed response elements
yields exactly N records in array order; each record's norad_id,
revolution_number, line_1 and line_2 are verbatim copies of the
corresponding wire fields of the corresponding element, while its epoch is
the timestamp parsed from the element's EPOCH string by the wire datetime
format — not the verbatim string (see the counterexample). -/
theorem C2_decode_verbatim (elems : List Json) (rs : List STResponse)
    (h : decodeElems elems = .ok rs) :
    rs.length = elems.length ∧
    ∀ i (hi : i < elems.length) (hr : i < rs.length),
      ∃ fields, elems.get ⟨i, hi⟩ = .obj fields ∧
        reqStringField fields "NORAD_CAT_ID" = .ok (rs.get ⟨i, hr⟩).norad_id ∧
        reqStringField fields "REV_AT_EPOCH" =
          .ok (rs.get ⟨i, hr⟩).revolution_number ∧
        reqStringField fields "TLE_LINE1" = .ok (rs.get ⟨i, hr⟩).line_1 ∧
        reqStringField fields "TLE_LINE2" = .ok (rs.get ⟨i, hr⟩).line_2 ∧
        ∃ s, reqStringField fields "EPOCH" = .ok s ∧
          parseNaiveDateTime s = some (rs.get ⟨i, hr⟩).datetime := by
  obtain ⟨hlen, hidx⟩ := decodeElems_ok h
  refine ⟨hlen, ?_⟩
  intro i hi hr
  have hdec := hidx i hi hr
  rcases hget : elems.get ⟨i, hi⟩ with _ | b | n | sv | xs | fields
  case obj =>
    rw [hget] at hdec
    obtain ⟨_, _, h3, h4, h5, h6, h7⟩ := decodeSTResponse_obj_ok hdec
    obtain ⟨s, hs, hp⟩ := reqDateTimeField_ok h4
    exact ⟨fields, rfl, h3, h5, h6, h7, s, hs, hp⟩
  all_goals (rw [hget] at hdec; exact Except.noConfusion hdec)

/-- Witness for C2 at a two-element body. -/
theorem C2_decode_verbatim_witness :
    decodeElems [.obj epochFieldsA, .obj nlFields] = .ok [epochRec, nlRec] ∧
    ([epochRec, nlRec] : List STResponse).length =
      ([Json.obj epochFieldsA, .obj nlFields] : List Json).length :=
  ⟨rfl, (C2_decode_verbatim [.obj epochFieldsA, .obj nlFields] [epochRec, nlRec] rfl).1⟩

/-- C2 counterexample: two well-formed elements whose EPOCH wire strings
differ decode to the very same record, so a record's epoch value cannot be
the verbatim EPOCH field of its element. -/
theorem C2_counterexample :
    decodeElems [.obj epochFieldsA] = .ok [epochRec] ∧
    decodeElems [.obj epochFieldsB] = .ok [epochRec] ∧
    reqStringField epochFieldsA "EPOCH" = .ok "2023-01-01T00:00:00" ∧
    reqStringField epochFieldsB "EPOCH" = .ok "2023-01-01T00:00:00.000" ∧
    ("2023-01-01T00:00:00" : String) ≠ "2023-01-01T00:00:00.000" :=
  ⟨rfl, rfl, rfl, rfl, by decide⟩

/-- C4: a response element with OBJECT_NAME absent or null decodes to a
record whose name is the true absent value `none`; the literal "Unknown" is
substituted only by the output writer at serialization time, and a present
name is passed through to the serialized output unchanged. -/
theorem C4_name_default (fields : List (String × Json)) (r : STResponse)
    (s : String) (hdec : decodeSTResponse (.obj fields) = .ok r) :
    (countKey fields "OBJECT_NAME" = 0 → r.object_name = none) ∧
    (getField fields "OBJECT_NAME" = .ok (some .null) → r.object_name = none) ∧
    (getField fields "OBJECT_NAME" = .ok (some (.str s)) →
      r.object_name = some s) ∧
    (r.object_name = none →
      serializeRecord r = "Unknown" ++ "\n" ++ r.line_1 ++ "\n" ++ r.line_2 ++ "\n") ∧
    (r.object_name = some s →
      serializeRecord r = s ++ "\n" ++ r.line_1 ++ "\n" ++ r.line_2 ++ "\n") := by
  obtain ⟨h1, _, _, _, _, _, _⟩ := decodeSTResponse_obj_ok hdec
  refine ⟨?_, ?_, ?_, ?_, ?_⟩
  · intro h0
    have h2 := (optStringField_absent h0).symm.trans h1
    injection h2 with h3
    exact h3.symm
  · intro h0
    have h2 := (optStringField_null h0).symm.trans h1
    injection h2 with h3
    exact h3.symm
  · intro h0
    have h2 := (optStringField_str h0).symm.trans h1
    injection h2 with h3
    exact h3.symm
  · intro hn
    unfold serializeRecord displayName
    rw [hn]
    rfl
  · intro hn
    unfold serializeRecord displayName
    rw [hn]
    rfl

/-- Witness for C4: a null name serializes to the "Unknown" placeholder. -/
theorem C4_name_default_witness :
    serializeRecord epochRec =
      "Unknown" ++ "\n" ++ "1 25544U" ++ "\n" ++ "2 25544" ++ "\n" :=
  (C4_name_default nullNameFields epochRec "x" rfl).2.2.2.1 rfl

/-- C10: an element whose OBJECT_NAME is present and equal to the empty
string decodes to `some ""` and the writer emits an empty name line
verbatim, not the "Unknown" placeholder; any present name value is written
as it is. -/
theorem C10_empty_name (fields : List (String × Json)) (r : STResponse)
    (hdec : decodeSTResponse (.obj fields) = .ok r)
    (hname : getField fields "OBJECT_NAME" = .ok (some (.str ""))) :
    r.object_name = some "" ∧ displayName r = "" ∧ ("" : String) ≠ "Unknown" ∧
    serializeRecord r = "" ++ "\n" ++ r.line_1 ++ "\n" ++ r.line_2 ++ "\n" ∧
    (linesOf (serializeRecord r)).head? = some "" ∧
    (∀ sv : String, r.object_name = some sv → displayName r = sv) := by
  obtain ⟨h1, _, _, _, _, _, _⟩ := decodeSTResponse_obj_ok hdec
  have h2 := (optStringField_str hname).symm.trans h1
  injection h2 with h3
  have hobj : r.object_name = some "" := h3.symm
  have hdisp : displayName r = "" := by unfold displayName; rw [hobj]; rfl
  have hser : serializeRecord r =
      "" ++ "\n" ++ r.line_1 ++ "\n" ++ r.line_2 ++ "\n" := by
    unfold serializeRecord
    rw [hdisp]
  refine ⟨hobj, hdisp, by decide, hser, ?_, ?_⟩
  · have hdata : (serializeRecord r).data =
        '\n' :: (r.line_1.data ++ '\n' :: (r.line_2.data ++ ['\n'])) := by
      rw [hser]
      simp [String.data_append, newline_data]
    unfold linesOf
    rw [hdata, splitOnChar_cons, if_pos rfl]
    rfl
  · intro sv hsv
    unfold displayName
    rw [hsv]
    rfl

/-- Witness for C10 at a concrete element with an empty present name. -/
theorem C10_empty_name_witness :
    displayName emptyNameRec = "" ∧
    (linesOf (serializeRecord emptyNameRec)).head? = some "" :=
  ⟨(C10_empty_name emptyNameFields emptyNameRec rfl rfl).2.1,
   (C10_empty_name emptyNameFields emptyNameRec rfl rfl).2.2.2.2.1⟩

/-! ## Pipeline lemmas (claims C5, C6, C7, C8, C9) -/

theorem runMain_loglevel_error {ll : Option String} {e : String}
    (hll : checkLogLevel ll = .error e) (w : World) :
    runMain ll w = ⟨[], .error e, none⟩ := by
  unfold runMain
  rw [hll]

theorem runMain_settings_error {ll : Option String} {w : World} {lv : LevelFilter}
    {e : String} (hll : checkLogLevel ll = .ok lv)
    (hs : w.settingsResult = .error e) :
    runMain ll w = ⟨[.loadSettings], .error e, none⟩ := by
  unfold runMain
  rw [hll, hs]

theorem runMain_create_fail {ll : Option String} {w : World} {s : Settings}
    {lv : LevelFilter} (hll : checkLogLevel ll = .ok lv)
    (hs : w.settingsResult = .ok s) (hc : w.createOk = false) :
    runMain ll w =
      ⟨[.loadSettings, .createFile (joinPath s.output_directory s.output_filename)],
       .error "could not create output file", none⟩ := by
  unfold runMain
  rw [hll, hs, hc]
  rfl

theorem runMain_fetch_error {ll : Option String} {w : World} {s : Settings}
    {lv : LevelFilter} (hll : checkLogLevel ll = .ok lv)
    (hs : w.settingsResult = .ok s) (hc : w.createOk = true) {e : String}
    (hf : w.fetchResult = .error e) :
    runMain ll w = ⟨tracePrefix s, .error e, some ""⟩ := by
  unfold runMain
  rw [hll, hs, hc, hf]
  rfl

theorem runMain_decode_error {ll : Option String} {w : World} {s : Settings}
    {lv : LevelFilter} (hll : checkLogLevel ll = .ok lv)
    (hs : w.settingsResult = .ok s) (hc : w.createOk = true) {body : Json}
    (hb : w.fetchResult = .ok body) {e : String}
    (hd : decodeSTList body = .error e) :
    runMain ll w = ⟨tracePrefix s, .error e, some ""⟩ := by
  have hred : runMain ll w = (match decodeSTList body with
      | Except.error e2 => RunOutcome.mk (tracePrefix s) (.error e2) (some "")
      | Except.ok rs => RunOutcome.mk
          (tracePrefix s ++ rs.map (fun r => Event.writeTriple (displayName r) r.line_1 r.line_2))
          (.ok ()) (some (serializeRecords rs))) := by
    unfold runMain
    rw [hll, hs, hc, hb]
    rfl
  rw [hred, hd]

theorem runMain_decode_ok {ll : Option String} {w : World} {s : Settings}
    {lv : LevelFilter} (hll : checkLogLevel ll = .ok lv)
    (hs : w.settingsResult = .ok s) (hc : w.createOk = true) {body : Json}
    (hb : w.fetchResult = .ok body) {rs : List STResponse}
    (hd : decodeSTList body = .ok rs) :
    runMain ll w =
      ⟨tracePrefix s ++ rs.map (fun r => .writeTriple (displayName r) r.line_1 r.line_2),
       .ok (), some (serializeRecords rs)⟩ := by
  have hred : runMain ll w = (match decodeSTList body with
      | Except.error e2 => RunOutcome.mk (tracePrefix s) (.error e2) (some "")
      | Except.ok rs2 => RunOutcome.mk
          (tracePrefix s ++ rs2.map (fun r => Event.writeTriple (displayName r) r.line_1 r.line_2))
          (.ok ()) (some (serializeRecords rs2))) := by
    unfold runMain
    rw [hll, hs, hc, hb]
    rfl
  rw [hred, hd]

theorem countPosts_append (a b : List Event) :
    countPosts (a ++ b) = countPosts a + countPosts b := by
  simp [countPosts, List.filter_append]

theorem countPosts_tracePrefix (s : Settings) : countPosts (tracePrefix s) = 1 := rfl

theorem countPosts_writes (rs : List STResponse) :
    countPosts (rs.map (fun r => Event.writeTriple (displayName r) r.line_1 r.line_2)) = 0 := by
  induction rs with
  | nil => rfl
  | cons r rs ih =>
    show countPosts (Event.writeTriple (displayName r) r.line_1 r.line_2 ::
      rs.map (fun r => Event.writeTriple (displayName r) r.line_1 r.line_2)) = 0
    rw [show countPosts (Event.writeTriple (displayName r) r.line_1 r.line_2 ::
      rs.map (fun r => Event.writeTriple (displayName r) r.line_1 r.line_2)) =
      countPosts (rs.map (fun r => Event.writeTriple (displayName r) r.line_1 r.line_2))
      from rfl, ih]

theorem countPosts_le_one (ll : Option String) (w : World) :
    countPosts (runMain ll w).trace ≤ 1 := by
  rcases hll : checkLogLevel ll with e | lv
  · rw [runMain_loglevel_error hll]
    show countPosts [] ≤ 1
    decide
  rcases hs : w.settingsResult with e | s
  · rw [runMain_settings_error hll hs]
    show countPosts [Event.loadSettings] ≤ 1
    decide
  cases hc : w.createOk
  · rw [runMain_create_fail hll hs hc]
    show countPosts [Event.loadSettings, Event.createFile _] ≤ 1
    simp [countPosts]
  rcases hf : w.fetchResult with e | body
  · rw [runMain_fetch_error hll hs hc hf]
    rw [show (RunOutcome.mk (tracePrefix s) (.error e) (some "")).trace = tracePrefix s from rfl,
      countPosts_tracePrefix]
  rcases hd : decodeSTList body with e | rs
  · rw [runMain_decode_error hll hs hc hf hd]
    rw [show (RunOutcome.mk (tracePrefix s) (.error e) (some "")).trace = tracePrefix s from rfl,
      countPosts_tracePrefix]
  · rw [runMain_decode_ok hll hs hc hf hd]
    show countPosts (tracePrefix s ++ _) ≤ 1
    rw [countPosts_append, countPosts_tracePrefix, countPosts_writes]

theorem parseLevelFilter_invalid {s : String}
    (h : s ∉ ["off", "error", "warn", "info", "debug", "trace"]) :
    parseLevelFilter s = .error invalidLogLevelMsg := by
  simp only [List.mem_cons, List.not_mem_nil, or_false, not_or] at h
  obtain ⟨h1, h2, h3, h4, h5, h6⟩ := h
  unfold parseLevelFilter
  rw [if_neg h1, if_neg h2, if_neg h3, if_neg h4, if_neg h5, if_neg h6]

/-- C5: a response array holding an element that lacks a required wire field
(NORAD_CAT_ID, EPOCH, REV_AT_EPOCH, TLE_LINE1 or TLE_LINE2) fails the whole
decode; the run ends in error with no record content written to the output
file (the created file stays empty) and no write event in the trace.
Elements lacking only the optional OBJECT_NAME and OBJECT_ID fields decode
successfully. -/
theorem C5_strict_decode (ll : Option String) (w : World) (s : Settings)
    (lv : LevelFilter) (elems : List Json)
    (hll : checkLogLevel ll = .ok lv) (hs : w.settingsResult = .ok s)
    (hc : w.createOk = true) (hbody : w.fetchResult = .ok (.arr elems))
    (hbad : ∃ j ∈ elems, missingRequiredB j = true) :
    (∃ e, decodeSTList (.arr elems) = .error e) ∧
    (runMain ll w).fileContent = some "" ∧
    (∃ e, (runMain ll w).result = .error e) ∧
    (∀ n l1 l2, Event.writeTriple n l1 l2 ∉ (runMain ll w).trace) ∧
    (∀ (fields : List (String × Json)) (nid : String) (dt : NaiveDateTime)
        (rev l1 l2 : String),
      countKey fields "OBJECT_NAME" = 0 → countKey fields "OBJECT_ID" = 0 →
      reqStringField fields "NORAD_CAT_ID" = .ok nid →
      reqDateTimeField fields "EPOCH" = .ok dt →
      reqStringField fields "REV_AT_EPOCH" = .ok rev →
      reqStringField fields "TLE_LINE1" = .ok l1 →
      reqStringField fields "TLE_LINE2" = .ok l2 →
      decodeSTResponse (.obj fields) = .ok ⟨none, none, nid, dt, rev, l1, l2⟩) := by
  obtain ⟨j, hjmem, hjbad⟩ := hbad
  obtain ⟨e0, he0⟩ := missingRequiredB_error hjbad
  obtain ⟨e1, he1⟩ := decodeElems_error_of_mem hjmem he0
  have hd : decodeSTList (.arr elems) = .error e1 := he1
  rw [runMain_decode_error hll hs hc hbody hd]
  refine ⟨⟨e1, hd⟩, rfl, ⟨e1, rfl⟩, ?_, ?_⟩
  · intro n l1 l2 hm
    simp [tracePrefix] at hm
  · intro fields nid dt rev l1 l2 hn0 hi0 h3 h4 h5 h6 h7
    exact decodeSTResponse_obj_of fields none none nid dt rev l1 l2
      (optStringField_absent hn0) (optStringField_absent hi0) h3 h4 h5 h6 h7

/-- Witness for C5: one element without NORAD_CAT_ID aborts the run with an
empty output file. -/
theorem C5_strict_decode_witness :
    (runMain none demoWorldMissing).fileContent = some "" :=
  (C5_strict_decode none demoWorldMissing demoSettings .info
    [.obj missingIdFields] rfl rfl rfl rfl
    ⟨.obj missingIdFields, List.mem_cons_self _ _, rfl⟩).2.1

/-- C6 (amended): output-file creation happens after the settings load and
BEFORE the network fetch: whenever the file is created the trace starts
`loadSettings, createFile, httpPost` and record writes come only after;
when file creation fails the run aborts with an error before any network
activity — the trace stops at the failed creation and holds no POST. -/
theorem C6_create_before_fetch (ll : Option String) (w : World) (s : Settings)
    (lv : LevelFilter)
    (hll : checkLogLevel ll = .ok lv) (hs : w.settingsResult = .ok s) :
    (w.createOk = true →
      ∃ tail, (runMain ll w).trace = tracePrefix s ++ tail ∧
        ∀ e ∈ tail, ∃ n l1 l2, e = Event.writeTriple n l1 l2) ∧
    (w.createOk = false →
      (runMain ll w).trace = [Event.loadSettings,
        Event.createFile (joinPath s.output_directory s.output_filename)] ∧
      (runMain ll w).fileContent = none ∧
      (∃ e, (runMain ll w).result = .error e) ∧
      ∀ u f, Event.httpPost u f ∉ (runMain ll w).trace) := by
  constructor
  · intro hc
    rcases hf : w.fetchResult with e | body
    · rw [runMain_fetch_error hll hs hc hf]
      exact ⟨[], by simp, by simp⟩
    rcases hd : decodeSTList body with e | rs
    · rw [runMain_decode_error hll hs hc hf hd]
      exact ⟨[], by simp, by simp⟩
    · rw [runMain_decode_ok hll hs hc hf hd]
      refine ⟨_, rfl, ?_⟩
      intro e he
      obtain ⟨r, _, rfl⟩ := List.mem_map.mp he
      exact ⟨_, _, _, rfl⟩
  · intro hc
    rw [runMain_create_fail hll hs hc]
    refine ⟨rfl, rfl, ⟨_, rfl⟩, ?_⟩
    intro u f hm
    simp at hm

/-- Witness for the amended C6: a failed creation yields no file and, per
the theorem, no network activity. -/
theorem C6_create_before_fetch_witness :
    (runMain none demoWorldNoFile).fileContent = none :=
  ((C6_create_before_fetch none demoWorldNoFile demoSettings .info rfl rfl).2 rfl).2.1

/-- C6 counterexample: in a concrete run the createFile event strictly
precedes the single httpPost event and the httpPost event does not precede
it, so output-file creation does not happen after the network fetch. -/
theorem C6_counterexample :
    (runMain none demoWorldOffline).trace =
      [Event.loadSettings, Event.createFile "out/tle.txt",
       Event.httpPost loginUrl demoForm] ∧
    eventBeforeB (Event.createFile "out/tle.txt")
      (Event.httpPost loginUrl demoForm) (runMain none demoWorldOffline).trace = true ∧
    eventBeforeB (Event.httpPost loginUrl demoForm)
      (Event.createFile "out/tle.txt") (runMain none demoWorldOffline).trace = false :=
  ⟨by decide, by decide, by decide⟩

/-- C7: once the run reaches the network stage it performs exactly one POST,
to the fixed login endpoint with exactly the three form fields identity,
password and query; a transport failure ends the run in that error with no
record written; the whole outcome — in particular the single POST — is the
same for every configured connection_retries value, and no run ever
performs more than one POST. -/
theorem C7_single_post (ll : Option String) (w : World) (s : Settings)
    (lv : LevelFilter)
    (hll : checkLogLevel ll = .ok lv) (hs : w.settingsResult = .ok s)
    (hc : w.createOk = true) :
    countPosts (runMain ll w).trace = 1 ∧
    Event.httpPost loginUrl (authForm s) ∈ (runMain ll w).trace ∧
    authForm s = [("identity", s.username), ("password", s.password),
      ("query", buildQuery s.norad_ids)] ∧
    (∀ e, w.fetchResult = .error e →
      (runMain ll w).result = .error e ∧
      (runMain ll w).fileContent = some "" ∧
      ∀ n l1 l2, Event.writeTriple n l1 l2 ∉ (runMain ll w).trace) ∧
    (∀ n, runMain ll (retriesWorld w s n) = runMain ll w) ∧
    (∀ w2 : World, countPosts (runMain ll w2).trace ≤ 1) := by
  have hmem : Event.httpPost loginUrl (authForm s) ∈ tracePrefix s := by
    simp [tracePrefix]
  refine ⟨?_, ?_, rfl, ?_, ?_, fun w2 => countPosts_le_one ll w2⟩
  · rcases hf : w.fetchResult with e | body
    · rw [runMain_fetch_error hll hs hc hf]
      exact countPosts_tracePrefix s
    rcases hd : decodeSTList body with e | rs
    · rw [runMain_decode_error hll hs hc hf hd]
      exact countPosts_tracePrefix s
    · rw [runMain_decode_ok hll hs hc hf hd]
      show countPosts (tracePrefix s ++ _) = 1
      rw [countPosts_append, countPosts_tracePrefix, countPosts_writes]
  · rcases hf : w.fetchResult with e | body
    · rw [runMain_fetch_error hll hs hc hf]
      exact hmem
    rcases hd : decodeSTList body with e | rs
    · rw [runMain_decode_error hll hs hc hf hd]
      exact hmem
    · rw [runMain_decode_ok hll hs hc hf hd]
      exact List.mem_append_left _ hmem
  · intro e hf
    rw [runMain_fetch_error hll hs hc hf]
    refine ⟨rfl, rfl, ?_⟩
    intro n l1 l2 hm
    simp [tracePrefix] at hm
  · intro n
    have hs2 : (retriesWorld w s n).settingsResult = .ok (setRetries s n) := rfl
    have hc2 : (retriesWorld w s n).createOk = true := hc
    rcases hf : w.fetchResult with e | body
    · rw [runMain_fetch_error hll hs2 hc2 hf, runMain_fetch_error hll hs hc hf]
      rfl
    rcases hd : decodeSTList body with e | rs
    · rw [runMain_decode_error hll hs2 hc2 hf hd, runMain_decode_error hll hs hc hf hd]
      rfl
    · rw [runMain_decode_ok hll hs2 hc2 hf hd, runMain_decode_ok hll hs hc hf hd]
      rfl

/-- Witness for C7: the offline run still performs its single POST. -/
theorem C7_single_post_witness :
    countPosts (runMain none demoWorldOffline).trace = 1 :=
  (C7_single_post none demoWorldOffline demoSettings .info rfl rfl rfl).1

/-- C8: an invalid log-level string — anything but off, error, warn, info,
debug, trace — ends the run in an error with an empty trace: the settings
are never loaded, no file is created and no network call happens. -/
theorem C8_invalid_loglevel (s : String) (w : World)
    (h : s ∉ ["off", "error", "warn", "info", "debug", "trace"]) :
    runMain (some s) w = ⟨[], .error invalidLogLevelMsg, none⟩ ∧
    Event.loadSettings ∉ (runMain (some s) w).trace ∧
    (∀ p, Event.createFile p ∉ (runMain (some s) w).trace) ∧
    (∀ u f, Event.httpPost u f ∉ (runMain (some s) w).trace) := by
  have hlv : checkLogLevel (some s) = .error invalidLogLevelMsg :=
    parseLevelFilter_invalid h
  have hrun := runMain_loglevel_error hlv w
  rw [hrun]
  exact ⟨rfl, by simp, fun p => by simp, fun u f => by simp⟩

/-- Witness for C8 at the string "verbose". -/
theorem C8_invalid_loglevel_witness :
    runMain (some "verbose") demoWorldOffline =
      ⟨[], .error invalidLogLevelMsg, none⟩ :=
  (C8_invalid_loglevel "verbose" demoWorldOffline (by decide)).1

/-- C9: when the fetch or the decode fails (after a successful settings load
and file creation), the output file exists and is empty: it was created —
truncating any previous content — before the POST, as the trace order
loadSettings, createFile, httpPost shows, and the run ends in an error. -/
theorem C9_truncated_file_on_failure (ll : Option String) (w : World)
    (s : Settings) (lv : LevelFilter)
    (hll : checkLogLevel ll = .ok lv) (hs : w.settingsResult = .ok s)
    (hc : w.createOk = true)
    (hfail : (∃ e, w.fetchResult = .error e) ∨
      (∃ body, w.fetchResult = .ok body ∧ ∃ e, decodeSTList body = .error e)) :
    (runMain ll w).trace = tracePrefix s ∧
    (runMain ll w).fileContent = some "" ∧
    (∃ e, (runMain ll w).result = .error e) ∧
    tracePrefix s = [Event.loadSettings,
      Event.createFile (joinPath s.output_directory s.output_filename),
      Event.httpPost loginUrl (authForm s)] := by
  rcases hfail with ⟨e, hf⟩ | ⟨body, hb, e, hd⟩
  · rw [runMain_fetch_error hll hs hc hf]
    exact ⟨rfl, rfl, ⟨e, rfl⟩, rfl⟩
  · rw [runMain_decode_error hll hs hc hb hd]
    exact ⟨rfl, rfl, ⟨e, rfl⟩, rfl⟩

/-- Witness for C9: a transport failure leaves the empty created file. -/
theorem C9_truncated_file_on_failure_witness :
    (runMain none demoWorldOffline).fileContent = some "" :=
  (C9_truncated_file_on_failure none demoWorldOffline demoSettings .info
    rfl rfl rfl (.inl ⟨"offline", rfl⟩)).2.1

end TleRetriever
